import Mathlib

/-!
Shallow embedding of the consensus-to-execution coordination core:
the execution-engine coordinator (`beacon-chain/blockchain/execution_engine.go`)
and the subnet participation manager (`beacon-chain/p2p/subnets.go`).

External collaborators (fork-choice store, block/state/blob stores, the
execution-engine RPC, discovery) are modelled as explicit environments of
functions returning `Except`, so every code path of the embedded functions is
the image of a path in the source. Machine integers are `Nat` with explicit
`% 2 ^ 64` where Go uint64 overflow matters. Side effects that the claims
observe (fork-choice calls, payload-id cache writes, dials) are returned as an
explicit trace.
-/

namespace SSVL

/-- Byte strings: a list of byte values (each intended to lie in `[0, 256)`). -/
abbrev Bytes := List Nat

/-- Modelled from the spec: `bytesutil.PadTo` (missing from src/) pads a byte
slice with zero bytes on the right up to the requested size, returning the
original slice when it is already longer. -/
def padTo (b : Bytes) (size : Nat) : Bytes :=
  if size < b.length then b else b ++ List.replicate (size - b.length) 0

/-- Modelled from the spec: `bytesutil.ToBytes32` (missing from src/) copies a
byte slice into a fixed 32-byte array, truncating beyond 32 bytes and
zero-padding on the right. -/
def toBytes32 (b : Bytes) : Bytes :=
  padTo (b.take 32) 32

/-- The default latest-valid-hash sentinel of `execution_engine.go`:
`bytesutil.PadTo([]byte{0xff}, 32)`. -/
def defaultLatestValidHash : Bytes :=
  padTo [0xff] 32

/-- The all-zero 32-byte hash (the Go zero value of a `[32]byte` field). -/
def zeroHash32 : Bytes :=
  List.replicate 32 0

/-- Cardinality of Go uint64 values; uint64 arithmetic wraps modulo this. -/
def u64size : Nat := 2 ^ 64

namespace Blockchain

/-- Abstract 32-byte block roots. Roots are only compared and passed around by
the embedded code, so they are modelled by naturals. -/
abbrev Root := Nat

/-- Abstract 8-byte payload ids returned by the engine. -/
abbrev PayloadID := Nat

/-- The execution-layer identity of the payload embedded in a block; only its
block hash is read by the embedded functions. -/
structure ExecPayload where
  blockHash : Bytes
deriving DecidableEq

/-- A beacon block body as the coordinator observes it. The two fallible body
accessors used by the source (`blocks.IsExecutionBlock(body)` and
`body.Execution()`) are recorded as their results. -/
structure BeaconBlockBody where
  isExecutionBlock : Except Unit Bool
  execution : Except Unit ExecPayload

/-- A beacon block: slot, parent root, fork version and body. -/
structure BeaconBlock where
  slot : Nat
  parentRoot : Root
  blockVersion : Nat
  body : BeaconBlockBody

/-- A signed beacon block; the nil-interface and `IsNil()` checks of the source
are folded into the `Option` at each use site. -/
structure SignedBeaconBlock where
  block : BeaconBlock

/-- Payload attributes as the coordinator observes them: a fork version and
whether the attribute is the empty sentinel (`IsEmpty()`). -/
structure Attributer where
  attrVersion : Nat
  isEmpty : Bool
deriving DecidableEq

/-- The empty attribute of a given fork version
(`payloadattribute.EmptyWithVersion`). -/
def emptyWithVersion (v : Nat) : Attributer :=
  { attrVersion := v, isEmpty := true }

/-- The argument record of `notifyForkchoiceUpdate` (`fcuConfig`). The head
state is an opaque handle. -/
structure FcuConfig where
  headState : Nat
  headRoot : Root
  headBlock : Option SignedBeaconBlock
  attributes : Option Attributer

/-- Status of one `ForkchoiceUpdated` engine call, discriminated in the source
by the returned error: nil error, `ErrAcceptedSyncingPayloadStatus`,
`ErrInvalidPayloadStatus`, or any other error. -/
inductive FcuStatus where
  | ok
  | acceptedSyncing
  | invalidPayload
  | undefinedError
deriving DecidableEq

/-- One reply of the engine to `ForkchoiceUpdated`: the returned
`(payloadID, lastValidHash, err)` triple with the error collapsed to its
status class. -/
structure EngineFcuReply where
  payloadID : Option PayloadID
  lastValidHash : Bytes
  status : FcuStatus
deriving DecidableEq

/-- Modelled from the spec: the `InvalidityRecord`
`{ root, last_valid_hash, invalid_ancestor_roots }` carried by the
`invalidBlock` error type, whose Go definition is not under src/. Fields the
source leaves unset keep their Go zero values (`0`, `zeroHash32`, `[]`). -/
structure InvalidBlockData where
  root : Root
  lastValidHash : Bytes
  invalidAncestorRoots : List Root
deriving DecidableEq

/-- Errors surfaced by the embedded coordinator functions. `other` stands for
an opaque error surfaced unchanged from a collaborator. -/
inductive ChainError where
  | invalidBlock (d : InvalidBlockData)
  | nilBlock
  | undefinedEngine
  | other
deriving DecidableEq

/-- Whether a surfaced error carries the invalidity record. -/
def ChainError.carriesInvalidityRecord : ChainError → Bool
  | .invalidBlock _ => true
  | _ => false

/-- The block/state/blob stores consumed by `removeInvalidBlockAndState`. -/
structure StoreEnv where
  deleteStateFromCaches : Root → Except Unit Unit
  deleteBlock : Root → Except Unit Unit
  blobRemove : Root → Except Unit Unit

/-- Embedding of `removeInvalidBlockAndState`: per root, delete the cached
state, then the block; a failed blob removal is only logged and does not abort
the loop. -/
def removeInvalidBlockAndState (store : StoreEnv) : List Root → Except Unit Unit
  | [] => .ok ()
  | r :: rs =>
    match store.deleteStateFromCaches r with
    | .error e => .error e
    | .ok _ =>
      match store.deleteBlock r with
      | .error e => .error e
      | .ok _ =>
        match store.blobRemove r with
        | _ => removeInvalidBlockAndState store rs

/-- The collaborators of the execution-engine coordinator: fork-choice store
operations, block/state lookup, head persistence, the local stores, the current
slot and the prepare-all-payloads feature flag. -/
structure ChainEnv where
  setOptimisticToInvalid : Root → Root → Bytes → Except Unit (List Root)
  store : StoreEnv
  fcHead : Except Unit Root
  getBlock : Root → Except Unit SignedBeaconBlock
  stateByRoot : Root → Except Unit Nat
  setOptimisticToValid : Root → Except Unit Unit
  saveHead : Root → Except Unit Unit
  currentSlot : Nat
  prepareAllPayloads : Bool

/-- Observable side effects of one `notifyForkchoiceUpdate` call (recursive
calls included): engine invocations, arguments of `SetOptimisticToInvalid` and
`SetOptimisticToValid` calls, payload-id cache writes `(slot, root, id)` and
`saveHead` roots, in call order. -/
structure FcuTrace where
  engineCalls : Nat
  setInvalidArgs : List (Root × Root × Bytes)
  setValidArgs : List Root
  cacheSets : List (Nat × Root × PayloadID)
  savedHeads : List Root
deriving DecidableEq

/-- The trace of a call that never reached the engine. -/
def FcuTrace.empty : FcuTrace :=
  { engineCalls := 0, setInvalidArgs := [], setValidArgs := [], cacheSets := [], savedHeads := [] }

/-- The trace of a call whose only effect was one engine invocation. -/
def FcuTrace.engineOnly : FcuTrace :=
  { FcuTrace.empty with engineCalls := 1 }

/-- Concatenation of traces of successive calls. -/
def FcuTrace.append (t u : FcuTrace) : FcuTrace :=
  { engineCalls := t.engineCalls + u.engineCalls,
    setInvalidArgs := t.setInvalidArgs ++ u.setInvalidArgs,
    setValidArgs := t.setValidArgs ++ u.setValidArgs,
    cacheSets := t.cacheSets ++ u.cacheSets,
    savedHeads := t.savedHeads ++ u.savedHeads }

/-- Embedding of `notifyForkchoiceUpdate`. The engine is modelled by the list
`replies`: each `ForkchoiceUpdated` invocation consumes the head of the list
(the recursive re-notification of the invalid-head branch consumes the tail);
an exhausted list behaves like the undefined-error branch. The result is the
`(payloadID, error)` pair of the source together with the trace of observable
side effects. Nil-guard failures on the head block return `(nil, nil)` as in
the source; `saveHead` failures are only logged, so only the call itself is
recorded. -/
def notifyForkchoiceUpdate (env : ChainEnv) :
    List EngineFcuReply → FcuConfig → (Option PayloadID × Option ChainError) × FcuTrace
  | replies, arg =>
    match arg.headBlock with
    | none => ((none, none), FcuTrace.empty)
    | some signed =>
      let headBlk := signed.block
      match headBlk.body.isExecutionBlock with
      | .error _ => ((none, none), FcuTrace.empty)
      | .ok false => ((none, none), FcuTrace.empty)
      | .ok true =>
        match headBlk.body.execution with
        | .error _ => ((none, none), FcuTrace.empty)
        | .ok _headPayload =>
          let attributes :=
            match arg.attributes with
            | none => emptyWithVersion headBlk.blockVersion
            | some a => a
          match replies with
          | [] => ((none, none), FcuTrace.engineOnly)
          | reply :: rest =>
            match reply.status with
            | .undefinedError => ((none, none), FcuTrace.engineOnly)
            | .acceptedSyncing => ((reply.payloadID, none), FcuTrace.engineOnly)
            | .invalidPayload =>
              let lastValidHash :=
                if reply.lastValidHash.length = 0 then defaultLatestValidHash
                else reply.lastValidHash
              let lvh32 := toBytes32 lastValidHash
              let t0 := { FcuTrace.engineOnly with
                          setInvalidArgs := [(arg.headRoot, headBlk.parentRoot, lvh32)] }
              match env.setOptimisticToInvalid arg.headRoot headBlk.parentRoot lvh32 with
              | .error _ => ((none, none), t0)
              | .ok invalidRoots =>
                match removeInvalidBlockAndState env.store invalidRoots with
                | .error _ => ((none, none), t0)
                | .ok _ =>
                  match env.fcHead with
                  | .error _ =>
                    ((none, some (.invalidBlock
                        { root := arg.headRoot, lastValidHash := zeroHash32,
                          invalidAncestorRoots := invalidRoots })), t0)
                  | .ok r =>
                    match env.getBlock r with
                    | .error _ => ((none, none), t0)
                    | .ok b =>
                      match env.stateByRoot r with
                      | .error _ => ((none, none), t0)
                      | .ok st =>
                        let inner := notifyForkchoiceUpdate env rest
                          { headState := st, headRoot := r, headBlock := some b,
                            attributes := some attributes }
                        let t1 := FcuTrace.append t0 inner.2
                        match inner.1.2 with
                        | some e => ((none, some e), t1)
                        | none =>
                          let t2 := { t1 with savedHeads := t1.savedHeads ++ [r] }
                          ((inner.1.1, some (.invalidBlock
                              { root := arg.headRoot, lastValidHash := zeroHash32,
                                invalidAncestorRoots := invalidRoots })), t2)
            | .ok =>
              let tV := { FcuTrace.engineOnly with setValidArgs := [arg.headRoot] }
              match env.setOptimisticToValid arg.headRoot with
              | .error _ => ((none, none), tV)
              | .ok _ =>
                let hasAttr := !attributes.isEmpty
                let nextSlot := env.currentSlot + 1
                match reply.payloadID with
                | some pid =>
                  if hasAttr then
                    ((some pid, none),
                      { tV with cacheSets := [(nextSlot, arg.headRoot, pid)] })
                  else ((some pid, none), tV)
                | none => ((none, none), tV)

/-- Embedding of `pruneInvalidBlock`: mark the root invalid in fork choice,
remove the invalidated roots from the stores, and return the
invalidity-record error on success; a failure of either collaborator is
surfaced unchanged (as the opaque `ChainError.other`). The result is the
nilable Go `error` value, so `none` would be a nil error. -/
def pruneInvalidBlock (env : ChainEnv) (root parentRoot : Root) (lvh : Bytes) :
    Option ChainError :=
  match env.setOptimisticToInvalid root parentRoot lvh with
  | .error _ => some .other
  | .ok invalidRoots =>
    match removeInvalidBlockAndState env.store invalidRoots with
    | .error _ => some .other
    | .ok _ =>
      some (.invalidBlock
        { root := 0, lastValidHash := lvh, invalidAncestorRoots := invalidRoots })

/-- Modelled from the spec: the ordered fork levels of `runtime/version`
(missing from src/): Phase0, Altair, Bellatrix, Capella, Deneb, Electra. -/
def versionBellatrix : Nat := 2

/-- Fork level of Capella (see `versionBellatrix`). -/
def versionCapella : Nat := 3

/-- Fork level of Deneb (see `versionBellatrix`). -/
def versionDeneb : Nat := 4

/-- Fork level of Electra (see `versionBellatrix`). -/
def versionElectra : Nat := 5

/-- The data `notifyNewPayload` reads from a non-nil signed beacon block:
the block fork version and the results of the fallible accessors applied to
it (`BeaconBlockIsNil`, `IsExecutionEnabledUsingHeader` with the given
pre-state header, `body.Execution()`, `kzgCommitmentsToVersionedHashes`,
`body.ExecutionRequests()`); the parent root is carried for Deneb onward. -/
structure NnpBlock where
  blockVersion : Nat
  beaconBlockIsNil : Except Unit Unit
  executionEnabled : Except Unit Bool
  execution : Except Unit ExecPayload
  versionedHashes : Except Unit (List Bytes)
  parentRoot : Root
  executionRequests : Except Unit Unit

/-- The engine side of one `NewPayload` call: the returned
`(lastValidHash, err)` pair with the error collapsed to its status class. -/
structure NnpEnv where
  lastValidHash : Bytes
  status : FcuStatus

/-- Embedding of `notifyNewPayload`. The second component of the result counts
engine `NewPayload` invocations (0 or 1). A nil signed block is `none`;
`preStateVersion` is the version of the pre-state. -/
def notifyNewPayload (env : NnpEnv) (preStateVersion : Nat) (blk : Option NnpBlock) :
    (Bool × Option ChainError) × Nat :=
  match blk with
  | none => ((false, some .nilBlock), 0)
  | some b =>
    if preStateVersion < versionBellatrix then ((true, none), 0)
    else
      match b.beaconBlockIsNil with
      | .error _ => ((false, some .nilBlock), 0)
      | .ok _ =>
        match b.executionEnabled with
        | .error _ =>
          ((false, some (.invalidBlock
              { root := 0, lastValidHash := zeroHash32, invalidAncestorRoots := [] })), 0)
        | .ok false => ((true, none), 0)
        | .ok true =>
          match b.execution with
          | .error _ =>
            ((false, some (.invalidBlock
                { root := 0, lastValidHash := zeroHash32, invalidAncestorRoots := [] })), 0)
          | .ok _payload =>
            match (if versionDeneb ≤ b.blockVersion then b.versionedHashes else .ok []) with
            | .error _ =>
              ((false, some (.invalidBlock
                  { root := 0, lastValidHash := zeroHash32, invalidAncestorRoots := [] })), 0)
            | .ok _hashes =>
              match (if versionElectra ≤ b.blockVersion then b.executionRequests
                     else .ok ()) with
              | .error _ => ((false, some .other), 0)
              | .ok _ =>
                match env.status with
                | .ok => ((true, none), 1)
                | .acceptedSyncing => ((false, none), 1)
                | .invalidPayload =>
                  ((false, some (.invalidBlock
                      { root := 0, lastValidHash := toBytes32 env.lastValidHash,
                        invalidAncestorRoots := [] })), 1)
                | .undefinedError => ((false, some .undefinedEngine), 1)

/-- A store environment whose operations all succeed. -/
def allOkStore : StoreEnv :=
  { deleteStateFromCaches := fun _ => .ok (),
    deleteBlock := fun _ => .ok (),
    blobRemove := fun _ => .ok () }

/-- A coordinator environment whose fork-choice invalidation and lookups fail
while `SetOptimisticToValid` succeeds; current slot 7. -/
def failingInvalidationEnv : ChainEnv :=
  { setOptimisticToInvalid := fun _ _ _ => .error (),
    store := allOkStore,
    fcHead := .error (),
    getBlock := fun _ => .error (),
    stateByRoot := fun _ => .error (),
    setOptimisticToValid := fun _ => .ok (),
    saveHead := fun _ => .ok (),
    currentSlot := 7,
    prepareAllPayloads := false }

/-- A sample post-merge signed block: slot 3, parent root 2, Deneb version,
an execution block with a concrete payload hash. -/
def sampleExecBlock : SignedBeaconBlock :=
  { block :=
    { slot := 3, parentRoot := 2, blockVersion := versionDeneb,
      body :=
      { isExecutionBlock := .ok true,
        execution := .ok { blockHash := List.replicate 32 9 } } } }

/-- A sample pre-merge signed block (not an execution block). -/
def preMergeBlock : SignedBeaconBlock :=
  { block :=
    { slot := 2, parentRoot := 0, blockVersion := 0,
      body := { isExecutionBlock := .ok false, execution := .error () } } }

/-- A forkchoice-update argument with head root 1, the sample execution block
and nil attributes. -/
def sampleFcuArg : FcuConfig :=
  { headState := 0, headRoot := 1, headBlock := some sampleExecBlock, attributes := none }

/-- A non-empty Deneb payload attribute. -/
def nonEmptyAttrs : Attributer :=
  { attrVersion := versionDeneb, isEmpty := false }

/-- A forkchoice-update argument with head root 1, the sample execution block
and non-empty attributes. -/
def sampleFcuArgAttrs : FcuConfig :=
  { headState := 0, headRoot := 1, headBlock := some sampleExecBlock,
    attributes := some nonEmptyAttrs }

/-- An INVALID engine reply with an empty last-valid-hash. -/
def invalidReplyEmptyLvh : EngineFcuReply :=
  { payloadID := none, lastValidHash := [], status := .invalidPayload }

/-- A VALID engine reply carrying no payload id. -/
def validReplyNilPid : EngineFcuReply :=
  { payloadID := none, lastValidHash := [], status := .ok }

/-- A VALID engine reply carrying payload id 11. -/
def validReplyWithPid : EngineFcuReply :=
  { payloadID := some 11, lastValidHash := [], status := .ok }

/-- A coordinator environment for the invalid-head recovery path: the
invalidation returns roots `[1]`, the new head is root 9 and its block is a
pre-merge block, so the recursive call is a no-op. -/
def recoveryEnv : ChainEnv :=
  { setOptimisticToInvalid := fun _ _ _ => .ok [1],
    store := allOkStore,
    fcHead := .ok 9,
    getBlock := fun _ => .ok preMergeBlock,
    stateByRoot := fun _ => .ok 0,
    setOptimisticToValid := fun _ => .ok (),
    saveHead := fun _ => .ok (),
    currentSlot := 7,
    prepareAllPayloads := false }

/-- The argument record of the recursive re-notification inside the
invalid-head branch: the new head `(st, r, b)` with the attributes the outer
call resolved (the caller's attributes, or the substituted empty attribute
when the caller passed nil). -/
def recursiveFcuConfig (st : Nat) (r : Root) (b : SignedBeaconBlock)
    (attrs : Attributer) : FcuConfig :=
  { headState := st, headRoot := r, headBlock := some b, attributes := some attrs }

/-- A sample engine reply for `NewPayload` with VALID status. -/
def sampleNnpEnv : NnpEnv :=
  { lastValidHash := [], status := .ok }

/-- A sample pre-merge block view for `notifyNewPayload`. -/
def preMergeNnpBlock : NnpBlock :=
  { blockVersion := 0, beaconBlockIsNil := .ok (), executionEnabled := .ok false,
    execution := .error (), versionedHashes := .error (), parentRoot := 0,
    executionRequests := .error () }

end Blockchain

namespace P2P

/-- The protocol constants read by `subnets.go` through `params.BeaconConfig()`. -/
structure NetworkConfig where
  attestationSubnetCount : Nat
  subnetsPerNode : Nat
  epochsPerSubnetSubscription : Nat
  nodeIdBits : Nat
  attestationSubnetPrefixBits : Nat

/-- Modelled from the spec: the mainnet values of the protocol constants
(`params.BeaconConfig()` is not under src/): `ATTESTATION_SUBNET_COUNT = 64`,
`SUBNETS_PER_NODE = 2`, `EPOCHS_PER_SUBNET_SUBSCRIPTION = 256`,
`NODE_ID_BITS = 256`, `ATTESTATION_SUBNET_PREFIX_BITS = 6`. -/
def mainnetConfig : NetworkConfig :=
  { attestationSubnetCount := 64, subnetsPerNode := 2,
    epochsPerSubnetSubscription := 256, nodeIdBits := 256,
    attestationSubnetPrefixBits := 6 }

/-- Modelled from the spec: `bytesutil.Bytes8` (missing from src/), the
little-endian 8-byte encoding of a uint64 (the pseudocode `uint_to_bytes`). -/
def bytes8 (n : Nat) : SSVL.Bytes :=
  (List.range 8).map (fun i => n / 2 ^ (8 * i) % 256)

/-- Embedding of `computeOffsetAndPrefix` (renamed): from the 256-bit node id,
the high `ATTESTATION_SUBNET_PREFIX_BITS` bits (via a right shift by
`NODE_ID_BITS - ATTESTATION_SUBNET_PREFIX_BITS` and uint64 truncation) and the
node offset `node_id mod EPOCHS_PER_SUBNET_SUBSCRIPTION` (uint64 truncated). -/
def computeOffsetAndPfx (cfg : NetworkConfig) (nodeID : Nat) : Nat × Nat :=
  let remBits := cfg.nodeIdBits - cfg.attestationSubnetPrefixBits
  let nodeIdPfx := nodeID / 2 ^ remBits % SSVL.u64size
  let nodeOffset := nodeID % cfg.epochsPerSubnetSubscription % SSVL.u64size
  (nodeOffset, nodeIdPfx)

/-- Embedding of `computeSubscribedSubnet`, parameterised by the external
protocol shuffle `helpers.ComputeShuffledIndex` (arguments: index, index
count, seed) and the external hash function `hash.Hash`. The uint64 addition
`nodeOffset + epoch` wraps modulo `2 ^ 64` as in Go, and so does
`permutatedPrefix + index`. -/
def computeSubscribedSubnet (shuffle : Nat → Nat → SSVL.Bytes → Except Unit Nat)
    (hashFn : SSVL.Bytes → SSVL.Bytes) (cfg : NetworkConfig)
    (nodeID : Nat) (epoch : Nat) (index : Nat) : Except Unit Nat :=
  let op := computeOffsetAndPfx cfg nodeID
  let seedInput := (op.1 + epoch) % SSVL.u64size / cfg.epochsPerSubnetSubscription
  let permSeed := hashFn (bytes8 seedInput)
  match shuffle op.2 (2 ^ cfg.attestationSubnetPrefixBits) permSeed with
  | .error e => .error e
  | .ok permutatedPfx =>
    .ok ((permutatedPfx + index) % SSVL.u64size % cfg.attestationSubnetCount)

/-- The loop body of `computeSubscribedSubnets`: subnets for indices
`i, i+1, …, i+k-1`, aborting on the first error as the source does. -/
def computeSubnetsLoop (shuffle : Nat → Nat → SSVL.Bytes → Except Unit Nat)
    (hashFn : SSVL.Bytes → SSVL.Bytes) (cfg : NetworkConfig)
    (nodeID : Nat) (epoch : Nat) : Nat → Nat → Except Unit (List Nat)
  | _, 0 => .ok []
  | i, k + 1 =>
    match computeSubscribedSubnet shuffle hashFn cfg nodeID epoch i with
    | .error e => .error e
    | .ok s =>
      match computeSubnetsLoop shuffle hashFn cfg nodeID epoch (i + 1) k with
      | .error e => .error e
      | .ok rest => .ok (s :: rest)

/-- Embedding of `computeSubscribedSubnets`: the subnets for indices
`0, …, SUBNETS_PER_NODE - 1`. -/
def computeSubscribedSubnets (shuffle : Nat → Nat → SSVL.Bytes → Except Unit Nat)
    (hashFn : SSVL.Bytes → SSVL.Bytes) (cfg : NetworkConfig)
    (nodeID : Nat) (epoch : Nat) : Except Unit (List Nat) :=
  computeSubnetsLoop shuffle hashFn cfg nodeID epoch 0 cfg.subnetsPerNode

/-- A 64-bit attestation subnet bitfield (`bitfield.Bitvector64`). -/
abbrev Bitvector64 := List Bool

/-- A 4-bit sync-committee subnet bitfield (`bitfield.Bitvector4`). -/
abbrev Bitvector4 := List Bool

/-- The advertised node metadata: V0 carries a sequence number and the
attestation bitfield, V1 additionally the sync-committee bitfield
(`pb.MetaDataV0` / `pb.MetaDataV1` under their wrappers). -/
inductive Metadata where
  | v0 (seqNumber : Nat) (attnets : Bitvector64)
  | v1 (seqNumber : Nat) (attnets : Bitvector64) (syncnets : Bitvector4)
deriving DecidableEq

/-- The advertised sequence number of a metadata value. -/
def Metadata.sequenceNumber : Metadata → Nat
  | .v0 s _ => s
  | .v1 s _ _ => s

/-- The attestation bitfield of a metadata value. -/
def Metadata.attnets : Metadata → Bitvector64
  | .v0 _ a => a
  | .v1 _ a _ => a

/-- The sync-committee bitfield of a metadata value (V1 only). -/
def Metadata.syncnets : Metadata → Option Bitvector4
  | .v0 _ _ => none
  | .v1 _ _ y => some y

/-- The part of the p2p service state touched by the record updates: the
local node record entries under the attnets and syncnets keys, and the
advertised metadata. -/
structure SubnetRecordState where
  localAttEntry : Option Bitvector64
  localSyncEntry : Option Bitvector4
  metaData : Metadata
deriving DecidableEq

/-- Embedding of `updateSubnetRecordWithMetadata`: set the attnets record
entry and replace the metadata by a V0 blob with the incremented (uint64,
wrapping) sequence number and the new bitfield. -/
def updateSubnetRecordWithMetadata (s : SubnetRecordState) (bitV : Bitvector64) :
    SubnetRecordState :=
  { s with
    localAttEntry := some bitV,
    metaData := .v0 ((s.metaData.sequenceNumber + 1) % SSVL.u64size) bitV }

/-- Embedding of `updateSubnetRecordWithMetadataV2`: set the attnets and
syncnets record entries and replace the metadata by a V1 blob with the
incremented (uint64, wrapping) sequence number and the new bitfields. -/
def updateSubnetRecordWithMetadataV2 (s : SubnetRecordState)
    (bitVAtt : Bitvector64) (bitVSync : Bitvector4) : SubnetRecordState :=
  { localAttEntry := some bitVAtt,
    localSyncEntry := some bitVSync,
    metaData := .v1 ((s.metaData.sequenceNumber + 1) % SSVL.u64size) bitVAtt bitVSync }

/-- Classification of the (suffixed) topic by the two `strings.Contains`
tests of `FindPeersWithSubnet`: an attestation topic, a sync-committee topic,
or neither. -/
inductive TopicKind where
  | attestationTopic
  | syncCommitteeTopic
  | otherTopic
deriving DecidableEq

/-- The collaborators of `FindPeersWithSubnet`. Discovery, pubsub and the
iterator are external; `peerCount n` is the pubsub peer count for the
suffixed topic observed at the top of iteration `n`, `ctxErr n` whether the
context is cancelled there, `nodesRead n` the batch the iterator yields there
(already clamped to `MinimumPeersInSubnetSearch` / `MaxConcurrentDials`), and
`convertToAddrInfo` folds the conversion error and nil-info skips of the dial
loop into an `Option`. -/
structure FindPeersEnv where
  discoveryEnabled : Bool
  topicKind : TopicKind
  peerCount : Nat → Nat
  ctxErr : Nat → Bool
  nodesRead : Nat → List Nat
  convertToAddrInfo : Nat → Option Nat

/-- The discovery loop of `FindPeersWithSubnet`. The returned list is the
sequence of peers dispatched for dialing (the `wg.Wait` batch barrier does
not affect the returned value). `fuel` bounds the number of iterations of a
loop that the source documents may otherwise not terminate; exhausting it
yields the error outcome, and every claim proved below is insensitive to the
chosen fuel. -/
def findPeersLoop (env : FindPeersEnv) (threshold : Nat) :
    Nat → List Nat → Nat → (Bool × Option Unit) × List Nat
  | iter, dials, fuel =>
    if threshold ≤ env.peerCount iter then ((true, none), dials)
    else if env.ctxErr iter then ((false, some ()), dials)
    else
      match fuel with
      | 0 => ((false, some ()), dials)
      | f + 1 =>
        let batch := (env.nodesRead iter).filterMap env.convertToAddrInfo
        findPeersLoop env threshold (iter + 1) (dials ++ batch) f

/-- Embedding of `FindPeersWithSubnet`: return `(false, nil)` when discovery
is disabled, an error for an unrecognised topic, and otherwise run the
discovery loop from iteration 0 with no dials dispatched yet. The threshold
is a count of peers, modelled as a natural. -/
def FindPeersWithSubnet (env : FindPeersEnv) (threshold : Nat) (fuel : Nat) :
    (Bool × Option Unit) × List Nat :=
  if !env.discoveryEnabled then ((false, none), [])
  else
    match env.topicKind with
    | .otherTopic => ((false, some ()), [])
    | .attestationTopic => findPeersLoop env threshold 0 [] fuel
    | .syncCommitteeTopic => findPeersLoop env threshold 0 [] fuel

/-- A sample shuffle that returns its index argument unchanged. -/
def idShuffle : Nat → Nat → SSVL.Bytes → Except Unit Nat :=
  fun i _ _ => .ok i

/-- A sample hash function with constant output. -/
def constHash : SSVL.Bytes → SSVL.Bytes :=
  fun _ => []

/-- A record state whose metadata sequence number is 5. -/
def sampleRecordState : SubnetRecordState :=
  { localAttEntry := none, localSyncEntry := none, metaData := .v0 5 [] }

/-- A record state whose metadata sequence number is the maximal uint64. -/
def seqMaxRecordState : SubnetRecordState :=
  { localAttEntry := none, localSyncEntry := none,
    metaData := .v0 (SSVL.u64size - 1) [] }

/-- A discovery environment with discovery enabled, an attestation topic,
four pubsub peers at every iteration and no cancellation. -/
def readyFindEnv : FindPeersEnv :=
  { discoveryEnabled := true, topicKind := .attestationTopic,
    peerCount := fun _ => 4, ctxErr := fun _ => false,
    nodesRead := fun _ => [], convertToAddrInfo := fun _ => none }

end P2P

open Blockchain P2P

/-- C5: for every non-nil signed block whose pre-state version is earlier than
Bellatrix, `notifyNewPayload` returns `(true, nil)` without invoking the
execution engine. -/
theorem C5_preBellatrix_valid (env : NnpEnv) (v : Nat) (b : NnpBlock)
    (h : v < versionBellatrix) :
    notifyNewPayload env v (some b) = ((true, none), 0) := by
  simp [notifyNewPayload, h]

/-- Witness for C5: a pre-state at version 0 with a concrete block and engine
environment. -/
theorem C5_preBellatrix_valid_witness :
    notifyNewPayload sampleNnpEnv 0 (some preMergeNnpBlock) = ((true, none), 0) :=
  C5_preBellatrix_valid sampleNnpEnv 0 preMergeNnpBlock (by decide)

/-- C10: for every call to `notifyNewPayload` with a nil signed block, the
call returns `(false, non-nil error)`, whatever the pre-state version (in
particular pre-Bellatrix), and the engine is not invoked. -/
theorem C10_nil_block_error (env : NnpEnv) (v : Nat) :
    notifyNewPayload env v none = ((false, some ChainError.nilBlock), 0) :=
  rfl

/-- C9: with discovery enabled and a recognised attestation or sync-committee
topic, a pubsub peer count already at the threshold on entry to the loop makes
`FindPeersWithSubnet` return `(true, nil)` without dialing any peer. -/
theorem C9_threshold_met_no_dials (env : FindPeersEnv) (threshold fuel : Nat)
    (hd : env.discoveryEnabled = true)
    (ht : env.topicKind ≠ TopicKind.otherTopic)
    (hc : threshold ≤ env.peerCount 0) :
    FindPeersWithSubnet env threshold fuel = ((true, none), []) := by
  unfold FindPeersWithSubnet
  rw [hd]
  cases htk : env.topicKind with
  | otherTopic => exact absurd htk ht
  | attestationTopic =>
    unfold findPeersLoop
    rw [if_pos hc]
    rfl
  | syncCommitteeTopic =>
    unfold findPeersLoop
    rw [if_pos hc]
    rfl

/-- Witness for C9: four peers present, threshold 3, fuel 5. -/
theorem C9_threshold_met_no_dials_witness :
    FindPeersWithSubnet readyFindEnv 3 5 = ((true, none), []) :=
  C9_threshold_met_no_dials readyFindEnv 3 5 rfl (by decide) (by decide)

/-- C8 (amended): `updateSubnetRecordWithMetadataV2` replaces the metadata by
a V1 blob whose sequence number is the previous one plus one modulo `2 ^ 64`
and whose bitfields are the arguments; absent a 64-bit wraparound, two
back-to-back calls produce sequence numbers `k` and `k + 1`. -/
theorem C8_seq_increment (s : SubnetRecordState) (a a2 : Bitvector64)
    (y y2 : Bitvector4) (h : s.metaData.sequenceNumber + 2 < SSVL.u64size) :
    (updateSubnetRecordWithMetadataV2 s a y).metaData
        = .v1 (s.metaData.sequenceNumber + 1) a y ∧
      (updateSubnetRecordWithMetadataV2 (updateSubnetRecordWithMetadataV2 s a y) a2 y2).metaData
        = .v1 (s.metaData.sequenceNumber + 2) a2 y2 := by
  have h1 : (s.metaData.sequenceNumber + 1) % SSVL.u64size
      = s.metaData.sequenceNumber + 1 := Nat.mod_eq_of_lt (by omega)
  refine ⟨by simp [updateSubnetRecordWithMetadataV2, h1], ?_⟩
  simp [updateSubnetRecordWithMetadataV2, Metadata.sequenceNumber, h1]
  exact Nat.mod_eq_of_lt h

/-- Witness for C8: back-to-back updates from sequence number 5 yield 6, 7. -/
theorem C8_seq_increment_witness :
    (updateSubnetRecordWithMetadataV2 sampleRecordState [true] [false]).metaData
        = .v1 6 [true] [false] ∧
      (updateSubnetRecordWithMetadataV2
          (updateSubnetRecordWithMetadataV2 sampleRecordState [true] [false])
          [false] [true]).metaData
        = .v1 7 [false] [true] :=
  C8_seq_increment sampleRecordState [true] [false] [false] [true] (by decide)

/-- Counterexample for C8 as stated: at the maximal uint64 sequence number the
update wraps to 0, which is not the previous sequence number plus one. -/
theorem C8_seq_increment_counterexample :
    (updateSubnetRecordWithMetadataV2 seqMaxRecordState [] []).metaData.sequenceNumber = 0 ∧
      (updateSubnetRecordWithMetadataV2 seqMaxRecordState [] []).metaData.sequenceNumber ≠
        seqMaxRecordState.metaData.sequenceNumber + 1 := by
  have hseq : (updateSubnetRecordWithMetadataV2 seqMaxRecordState [] []).metaData.sequenceNumber
      = 0 := by
    show (SSVL.u64size - 1 + 1) % SSVL.u64size = 0
    have : SSVL.u64size - 1 + 1 = SSVL.u64size := by
      have : 0 < SSVL.u64size := Nat.pos_pow_of_pos 64 (by norm_num)
      omega
    rw [this, Nat.mod_self]
  refine ⟨hseq, ?_⟩
  rw [hseq]
  show 0 ≠ SSVL.u64size - 1 + 1
  have : 0 < SSVL.u64size := Nat.pos_pow_of_pos 64 (by norm_num)
  omega

/-- C4 (amended): `pruneInvalidBlock` always returns a non-nil error; when the
fork-choice invalidation and the store removals succeed the error carries the
invalidity record with the given last-valid hash and the invalidated roots
(the root field keeps its zero value); when the invalidation or a removal
fails, that failure is surfaced unchanged, without an invalidity record. -/
theorem C4_prune_always_errors (env : ChainEnv) (root parentRoot : Root)
    (lvh : SSVL.Bytes) :
    (pruneInvalidBlock env root parentRoot lvh).isSome = true ∧
      (∀ roots, env.setOptimisticToInvalid root parentRoot lvh = .ok roots →
        removeInvalidBlockAndState env.store roots = .ok () →
        pruneInvalidBlock env root parentRoot lvh = some (.invalidBlock
          { root := 0, lastValidHash := lvh, invalidAncestorRoots := roots })) ∧
      (env.setOptimisticToInvalid root parentRoot lvh = .error () →
        pruneInvalidBlock env root parentRoot lvh = some .other) ∧
      (∀ roots, env.setOptimisticToInvalid root parentRoot lvh = .ok roots →
        removeInvalidBlockAndState env.store roots = .error () →
        pruneInvalidBlock env root parentRoot lvh = some .other) := by
  refine ⟨?_, ?_, ?_, ?_⟩
  · unfold pruneInvalidBlock
    split
    · rfl
    · split
      · rfl
      · rfl
  · intro roots hI hR
    simp [pruneInvalidBlock, hI, hR]
  · intro hI
    simp [pruneInvalidBlock, hI]
  · intro roots hI hR
    simp [pruneInvalidBlock, hI, hR]

/-- Witness for C4: a succeeding environment returns the record-carrying
error for roots `[1]`. -/
theorem C4_prune_always_errors_witness :
    pruneInvalidBlock recoveryEnv 1 2 SSVL.zeroHash32 = some (.invalidBlock
      { root := 0, lastValidHash := SSVL.zeroHash32, invalidAncestorRoots := [1] }) :=
  (C4_prune_always_errors recoveryEnv 1 2 SSVL.zeroHash32).2.1 [1] rfl rfl

/-- Counterexample for C4 as stated: when the fork-choice invalidation fails,
the returned (non-nil) error does not carry an invalidity record. -/
theorem C4_prune_always_errors_counterexample :
    (pruneInvalidBlock failingInvalidationEnv 1 2 SSVL.zeroHash32).map
        ChainError.carriesInvalidityRecord = some false :=
  rfl

/-- C1 (amended): in `notifyForkchoiceUpdate`, when the engine reports an
INVALID payload status with an empty last-valid hash, the hash passed to
`ForkChoiceStore.SetOptimisticToInvalid` is the 32-byte sentinel whose first
byte is 0xff and whose remaining 31 bytes are 0x00. -/
theorem C1_empty_lvh_sentinel (env : ChainEnv) (reply : EngineFcuReply)
    (rest : List EngineFcuReply) (arg : FcuConfig) (sb : SignedBeaconBlock)
    (p : ExecPayload)
    (hB : arg.headBlock = some sb)
    (hX : sb.block.body.isExecutionBlock = .ok true)
    (hP : sb.block.body.execution = .ok p)
    (hS : reply.status = .invalidPayload)
    (hL : reply.lastValidHash = []) :
    (notifyForkchoiceUpdate env (reply :: rest) arg).2.setInvalidArgs.head? =
        some (arg.headRoot, sb.block.parentRoot, toBytes32 defaultLatestValidHash) ∧
      toBytes32 defaultLatestValidHash = 255 :: List.replicate 31 0 := by
  refine ⟨?_, rfl⟩
  rw [notifyForkchoiceUpdate]
  simp only [hB, hX, hP, hS, hL, List.length_nil]
  repeat' split
  all_goals simp_all [FcuTrace.append, FcuTrace.engineOnly, FcuTrace.empty]

/-- Witness for C1: a concrete INVALID reply with empty last-valid hash
against the failing-invalidation environment. -/
theorem C1_empty_lvh_sentinel_witness :
    (notifyForkchoiceUpdate failingInvalidationEnv [invalidReplyEmptyLvh]
        sampleFcuArg).2.setInvalidArgs.head? =
        some (1, 2, toBytes32 defaultLatestValidHash) ∧
      toBytes32 defaultLatestValidHash = 255 :: List.replicate 31 0 :=
  C1_empty_lvh_sentinel failingInvalidationEnv invalidReplyEmptyLvh [] sampleFcuArg
    sampleExecBlock { blockHash := List.replicate 32 9 } rfl rfl rfl rfl rfl

/-- Counterexample for C1 as stated: the hash passed to
`SetOptimisticToInvalid` for an empty last-valid hash is 0xff followed by 31
zero bytes, not the all-0xff word. -/
theorem C1_empty_lvh_sentinel_counterexample :
    invalidReplyEmptyLvh.lastValidHash = [] ∧
      (notifyForkchoiceUpdate failingInvalidationEnv [invalidReplyEmptyLvh]
          sampleFcuArg).2.setInvalidArgs = [(1, 2, 255 :: List.replicate 31 0)] ∧
      (255 :: List.replicate 31 0 : SSVL.Bytes) ≠ List.replicate 32 255 :=
  ⟨rfl, rfl, by decide⟩

/-- C2 (amended): when the engine returns VALID with a non-nil payload id,
the supplied attributes are non-empty and `SetOptimisticToValid` succeeds,
`notifyForkchoiceUpdate` returns `(payload_id, nil)` and writes the payload-id
cache entry keyed by `(current_slot + 1, head_root)`. -/
theorem C2_valid_attrs_cached (env : ChainEnv) (reply : EngineFcuReply)
    (rest : List EngineFcuReply) (arg : FcuConfig) (sb : SignedBeaconBlock)
    (p : ExecPayload) (a : Attributer) (pid : PayloadID)
    (hB : arg.headBlock = some sb)
    (hX : sb.block.body.isExecutionBlock = .ok true)
    (hP : sb.block.body.execution = .ok p)
    (hS : reply.status = .ok)
    (hpid : reply.payloadID = some pid)
    (hA : arg.attributes = some a)
    (hNE : a.isEmpty = false)
    (hV : env.setOptimisticToValid arg.headRoot = .ok ()) :
    (notifyForkchoiceUpdate env (reply :: rest) arg).1 = (some pid, none) ∧
      (env.currentSlot + 1, arg.headRoot, pid) ∈
        (notifyForkchoiceUpdate env (reply :: rest) arg).2.cacheSets := by
  rw [notifyForkchoiceUpdate]
  simp only [hB, hX, hP, hS, hpid, hA, hNE, hV]
  simp [FcuTrace.engineOnly, FcuTrace.empty]

/-- Witness for C2: payload id 11 is cached under `(8, 1)` at current slot 7. -/
theorem C2_valid_attrs_cached_witness :
    (notifyForkchoiceUpdate failingInvalidationEnv [validReplyWithPid]
        sampleFcuArgAttrs).1 = (some 11, none) ∧
      (8, 1, 11) ∈ (notifyForkchoiceUpdate failingInvalidationEnv [validReplyWithPid]
        sampleFcuArgAttrs).2.cacheSets :=
  C2_valid_attrs_cached failingInvalidationEnv validReplyWithPid [] sampleFcuArgAttrs
    sampleExecBlock { blockHash := List.replicate 32 9 } nonEmptyAttrs 11
    rfl rfl rfl rfl rfl rfl rfl rfl

/-- Counterexample for C2 as stated: engine VALID (nil error) with non-empty
attributes but a nil payload id, and no payload-id cache entry is written. -/
theorem C2_valid_attrs_cached_counterexample :
    validReplyNilPid.status = FcuStatus.ok ∧
      sampleFcuArgAttrs.attributes.map Attributer.isEmpty = some false ∧
      (notifyForkchoiceUpdate failingInvalidationEnv [validReplyNilPid]
          sampleFcuArgAttrs).2.cacheSets = [] :=
  ⟨rfl, rfl, rfl⟩

/-- C3 (amended): when the engine reports INVALID and the invalidation,
removals, new-head lookup and block/state fetches all succeed and the
recursive re-notification returns no error, the call returns the payload id
of the recursion paired with an invalidity record whose root is the
originally submitted head root and whose invalid ancestor roots are the roots
returned by `SetOptimisticToInvalid`. -/
theorem C3_invalid_returns_record (env : ChainEnv) (reply : EngineFcuReply)
    (rest : List EngineFcuReply) (arg : FcuConfig) (sb : SignedBeaconBlock)
    (p : ExecPayload) (attrs : Attributer) (invalidRoots : List Root)
    (r : Root) (b : SignedBeaconBlock) (st : Nat)
    (hB : arg.headBlock = some sb)
    (hX : sb.block.body.isExecutionBlock = .ok true)
    (hP : sb.block.body.execution = .ok p)
    (hS : reply.status = .invalidPayload)
    (hA : arg.attributes = some attrs)
    (hI : env.setOptimisticToInvalid arg.headRoot sb.block.parentRoot
        (toBytes32 (if reply.lastValidHash.length = 0
          then defaultLatestValidHash else reply.lastValidHash)) = .ok invalidRoots)
    (hR : removeInvalidBlockAndState env.store invalidRoots = .ok ())
    (hH : env.fcHead = .ok r)
    (hG : env.getBlock r = .ok b)
    (hT : env.stateByRoot r = .ok st)
    (hRec : (notifyForkchoiceUpdate env rest (recursiveFcuConfig st r b attrs)).1.2 = none) :
    (notifyForkchoiceUpdate env (reply :: rest) arg).1 =
      ((notifyForkchoiceUpdate env rest (recursiveFcuConfig st r b attrs)).1.1,
        some (ChainError.invalidBlock
          { root := arg.headRoot, lastValidHash := zeroHash32,
            invalidAncestorRoots := invalidRoots })) := by
  simp only [recursiveFcuConfig] at hRec ⊢
  rw [notifyForkchoiceUpdate]
  simp only [hB, hX, hP, hS, hA, hI, hR, hH, hG, hT]
  simp only [hRec]

/-- Witness for C3: the recovery environment prunes root 1, re-heads to the
pre-merge block at root 9 and surfaces the record. -/
theorem C3_invalid_returns_record_witness :
    (notifyForkchoiceUpdate recoveryEnv [invalidReplyEmptyLvh] sampleFcuArgAttrs).1 =
      ((notifyForkchoiceUpdate recoveryEnv []
          (recursiveFcuConfig 0 9 preMergeBlock nonEmptyAttrs)).1.1,
        some (ChainError.invalidBlock
          { root := 1, lastValidHash := zeroHash32, invalidAncestorRoots := [1] })) :=
  C3_invalid_returns_record recoveryEnv invalidReplyEmptyLvh [] sampleFcuArgAttrs
    sampleExecBlock { blockHash := List.replicate 32 9 } nonEmptyAttrs [1] 9 preMergeBlock 0
    rfl rfl rfl rfl rfl rfl rfl rfl rfl rfl rfl

/-- Counterexample for C3 as stated: engine INVALID, the fork-choice
invalidation fails, and the call returns `(nil, nil)` with no invalidity
record at all. -/
theorem C3_invalid_returns_record_counterexample :
    invalidReplyEmptyLvh.status = FcuStatus.invalidPayload ∧
      (notifyForkchoiceUpdate failingInvalidationEnv [invalidReplyEmptyLvh]
          sampleFcuArg).1 = (none, none) :=
  ⟨rfl, rfl⟩

/-- Helper: a successful `computeSubscribedSubnet` value lies below the
attestation subnet count. -/
theorem computeSubscribedSubnet_lt (shuffle : Nat → Nat → SSVL.Bytes → Except Unit Nat)
    (hashFn : SSVL.Bytes → SSVL.Bytes) (cfg : NetworkConfig) (n e i s : Nat)
    (hc : 0 < cfg.attestationSubnetCount)
    (h : computeSubscribedSubnet shuffle hashFn cfg n e i = .ok s) :
    s < cfg.attestationSubnetCount := by
  unfold computeSubscribedSubnet at h
  dsimp only at h
  split at h
  · exact absurd h (by simp)
  · injection h with h2
    exact h2 ▸ Nat.mod_lt _ hc

/-- Helper: a successful subnets loop of length `k` returns `k` subnet ids,
all below the attestation subnet count. -/
theorem computeSubnetsLoop_ok_shape (shuffle : Nat → Nat → SSVL.Bytes → Except Unit Nat)
    (hashFn : SSVL.Bytes → SSVL.Bytes) (cfg : NetworkConfig) (n e : Nat)
    (hc : 0 < cfg.attestationSubnetCount) :
    ∀ k i subs, computeSubnetsLoop shuffle hashFn cfg n e i k = .ok subs →
      subs.length = k ∧ ∀ s ∈ subs, s < cfg.attestationSubnetCount := by
  intro k
  induction k with
  | zero =>
    intro i subs h
    rw [computeSubnetsLoop] at h
    injection h with h2
    subst h2
    exact ⟨rfl, by simp⟩
  | succ k ih =>
    intro i subs h
    rw [computeSubnetsLoop] at h
    cases hsub : computeSubscribedSubnet shuffle hashFn cfg n e i with
    | error e2 => rw [hsub] at h; cases h
    | ok s =>
      rw [hsub] at h
      cases hrec : computeSubnetsLoop shuffle hashFn cfg n e (i + 1) k with
      | error e2 => rw [hrec] at h; cases h
      | ok rest =>
        rw [hrec] at h
        injection h with h2
        subst h2
        obtain ⟨hlen, hmem⟩ := ih (i + 1) rest hrec
        refine ⟨by simp [hlen], ?_⟩
        intro x hx
        rcases List.mem_cons.mp hx with hx | hx
        · exact hx ▸ computeSubscribedSubnet_lt shuffle hashFn cfg n e i s hc hsub
        · exact hmem x hx

/-- C6: for every node id and epoch for which `computeSubscribedSubnets`
succeeds, the returned list has exactly `SUBNETS_PER_NODE` entries and every
entry lies in `[0, ATTESTATION_SUBNET_COUNT)` (duplicates permitted), for any
configuration with a positive subnet count and any external shuffle and hash
functions. -/
theorem C6_subnets_shape (shuffle : Nat → Nat → SSVL.Bytes → Except Unit Nat)
    (hashFn : SSVL.Bytes → SSVL.Bytes) (cfg : NetworkConfig) (n e : Nat)
    (subs : List Nat)
    (hc : 0 < cfg.attestationSubnetCount)
    (h : computeSubscribedSubnets shuffle hashFn cfg n e = .ok subs) :
    subs.length = cfg.subnetsPerNode ∧ ∀ s ∈ subs, s < cfg.attestationSubnetCount :=
  computeSubnetsLoop_ok_shape shuffle hashFn cfg n e hc cfg.subnetsPerNode 0 subs h

/-- Witness for C6: the identity shuffle at mainnet constants on node id 0,
epoch 0 yields the two-element list `[0, 1]` with both entries below 64. -/
theorem C6_subnets_shape_witness :
    ([0, 1] : List Nat).length = mainnetConfig.subnetsPerNode ∧
      ∀ s ∈ ([0, 1] : List Nat), s < mainnetConfig.attestationSubnetCount :=
  C6_subnets_shape idShuffle constHash mainnetConfig 0 0 [0, 1] (by decide) rfl

/-- Helper: adding epochs below `2 ^ 64` to an offset below 256 gives equal
uint64-wrapped 256-windows whenever the unwrapped 256-windows are equal. -/
theorem window_div_wrap_eq (o e1 e2 : Nat) (ho : o < 256)
    (h1 : e1 < 2 ^ 64) (h2 : e2 < 2 ^ 64)
    (hw : (o + e1) / 256 = (o + e2) / 256) :
    (o + e1) % 2 ^ 64 / 256 = (o + e2) % 2 ^ 64 / 256 := by
  by_cases hf : (o + e1) / 256 < 2 ^ 56
  · have hlt1 : o + e1 < 2 ^ 64 := by
      have hd := Nat.div_add_mod (o + e1) 256
      have hm : (o + e1) % 256 < 256 := Nat.mod_lt _ (by norm_num)
      omega
    have hf2 : (o + e2) / 256 < 2 ^ 56 := hw ▸ hf
    have hlt2 : o + e2 < 2 ^ 64 := by
      have hd := Nat.div_add_mod (o + e2) 256
      have hm : (o + e2) % 256 < 256 := Nat.mod_lt _ (by norm_num)
      omega
    rw [Nat.mod_eq_of_lt hlt1, Nat.mod_eq_of_lt hlt2, hw]
  · push_neg at hf
    have hge1 : 2 ^ 64 ≤ o + e1 := by
      have := (Nat.le_div_iff_mul_le (by norm_num : 0 < 256)).mp hf
      omega
    have hf2 : 2 ^ 56 ≤ (o + e2) / 256 := hw ▸ hf
    have hge2 : 2 ^ 64 ≤ o + e2 := by
      have := (Nat.le_div_iff_mul_le (by norm_num : 0 < 256)).mp hf2
      omega
    have hm1 : (o + e1) % 2 ^ 64 = o + e1 - 2 ^ 64 := by
      rw [Nat.mod_eq_sub_mod hge1, Nat.mod_eq_of_lt (by omega)]
    have hm2 : (o + e2) % 2 ^ 64 = o + e2 - 2 ^ 64 := by
      rw [Nat.mod_eq_sub_mod hge2, Nat.mod_eq_of_lt (by omega)]
    rw [hm1, hm2, Nat.div_eq_of_lt (by omega), Nat.div_eq_of_lt (by omega)]

/-- Helper: at mainnet constants, two epochs in the same subscription window
give identical subnet computations at every index. -/
theorem computeSubscribedSubnet_window_eq (shuffle : Nat → Nat → SSVL.Bytes → Except Unit Nat)
    (hashFn : SSVL.Bytes → SSVL.Bytes) (n e1 e2 : Nat)
    (h1 : e1 < 2 ^ 64) (h2 : e2 < 2 ^ 64)
    (hw : (n % 256 + e1) / 256 = (n % 256 + e2) / 256) (i : Nat) :
    computeSubscribedSubnet shuffle hashFn mainnetConfig n e1 i =
      computeSubscribedSubnet shuffle hashFn mainnetConfig n e2 i := by
  simp only [computeSubscribedSubnet, computeOffsetAndPfx, mainnetConfig, SSVL.u64size]
  have hmo : n % 256 % 2 ^ 64 = n % 256 :=
    Nat.mod_eq_of_lt (lt_trans (Nat.mod_lt _ (by norm_num)) (by norm_num))
  rw [hmo, window_div_wrap_eq (n % 256) e1 e2 (Nat.mod_lt _ (by norm_num)) h1 h2 hw]

/-- Helper: the window stability of `computeSubscribedSubnet` lifts to the
subnets loop at every start index and length. -/
theorem computeSubnetsLoop_window_eq (shuffle : Nat → Nat → SSVL.Bytes → Except Unit Nat)
    (hashFn : SSVL.Bytes → SSVL.Bytes) (n e1 e2 : Nat)
    (h1 : e1 < 2 ^ 64) (h2 : e2 < 2 ^ 64)
    (hw : (n % 256 + e1) / 256 = (n % 256 + e2) / 256) :
    ∀ k i, computeSubnetsLoop shuffle hashFn mainnetConfig n e1 i k =
      computeSubnetsLoop shuffle hashFn mainnetConfig n e2 i k := by
  intro k
  induction k with
  | zero => intro i; rfl
  | succ k ih =>
    intro i
    rw [computeSubnetsLoop, computeSubnetsLoop,
      computeSubscribedSubnet_window_eq shuffle hashFn n e1 e2 h1 h2 hw i, ih (i + 1)]

/-- C7: at mainnet constants, for every node id and any two epochs whose
node-offset-shifted values fall in the same
`EPOCHS_PER_SUBNET_SUBSCRIPTION` window (with
`node_offset = node_id mod EPOCHS_PER_SUBNET_SUBSCRIPTION`),
`computeSubscribedSubnets` returns identical lists, for any external shuffle
and hash functions; the epochs are uint64 values. -/
theorem C7_window_stability (shuffle : Nat → Nat → SSVL.Bytes → Except Unit Nat)
    (hashFn : SSVL.Bytes → SSVL.Bytes) (n e1 e2 : Nat)
    (h1 : e1 < SSVL.u64size) (h2 : e2 < SSVL.u64size)
    (hw : (n % mainnetConfig.epochsPerSubnetSubscription + e1) /
            mainnetConfig.epochsPerSubnetSubscription
        = (n % mainnetConfig.epochsPerSubnetSubscription + e2) /
            mainnetConfig.epochsPerSubnetSubscription) :
    computeSubscribedSubnets shuffle hashFn mainnetConfig n e1 =
      computeSubscribedSubnets shuffle hashFn mainnetConfig n e2 :=
  computeSubnetsLoop_window_eq shuffle hashFn n e1 e2
    (by simpa [SSVL.u64size] using h1) (by simpa [SSVL.u64size] using h2)
    (by simpa [mainnetConfig] using hw) mainnetConfig.subnetsPerNode 0

/-- Witness for C7: node id 5 at epochs 0 and 250 (same window, as
`(5 + 0) / 256 = (5 + 250) / 256 = 0`) yields identical lists. -/
theorem C7_window_stability_witness :
    computeSubscribedSubnets idShuffle constHash mainnetConfig 5 0 =
      computeSubscribedSubnets idShuffle constHash mainnetConfig 5 250 :=
  C7_window_stability idShuffle constHash 5 0 250
    (by norm_num [SSVL.u64size]) (by norm_num [SSVL.u64size])
    (by norm_num [mainnetConfig])

end SSVL
